/-
Verification of the Tank Tank network-synchronization layer.

This file gives a shallow embedding, in Lean 4, of the parts of the game
relevant to the synchronization spec: the Player record and its damage rule
(src/player.py), the client-side message application functions of
GameInstance (src/app.py), and the transport / lobby layer
(src/network_tcp.py).  Numeric fields that are Python floats are modelled
as exact rationals; Python ints are modelled as Int (or Nat where the
value is an index).  Python dicts with integer keys are modelled either as
association lists (the lobby roster, where entry count is observable) or
extensionally as functions to Option (the remote-target table).
-/
import Mathlib

set_option linter.unusedVariables false

namespace TankTank

/-! ## Constants (src/constants.py) -/

def PLAYER_MAX_HP : Int := 3
def PLAYER_RESPAWN_TIME : Int := 60
def WIN_KILLS : Int := 5
def PLAYER_SPEED : ℚ := 1
def MINE_LIMIT : Int := 5

/-! ## Player (src/player.py)

The render-only track trail is kept as a list of (x, y, alpha) triples as
in the source; the pyxel drawing code is out of scope. -/

@[ext]
structure Player where
  id : Nat
  x : ℚ
  y : ℚ
  color : Int
  direction : Int
  hp : Int
  speed : ℚ
  kills : Int
  alive : Bool
  respawn_timer : Int
  has_triple_shot : Bool
  has_shield : Bool
  has_speed_boost : Bool
  has_full_vision : Bool
  triple_shot_timer : Int
  speed_boost_timer : Int
  full_vision_timer : Int
  track_trail : List (Int × Int × Int)
  track_cooldown : Int
  shoot_cooldown : Int
  mines_remaining : Int
  deriving Repr, DecidableEq

/-- Player.__init__ -/
def Player.init (player_id : Nat) (x y : ℚ) (color : Int) : Player :=
  { id := player_id
    x := x
    y := y
    color := color
    direction := 0
    hp := PLAYER_MAX_HP
    speed := PLAYER_SPEED
    kills := 0
    alive := true
    respawn_timer := 0
    has_triple_shot := false
    has_shield := false
    has_speed_boost := false
    has_full_vision := false
    triple_shot_timer := 0
    speed_boost_timer := 0
    full_vision_timer := 0
    track_trail := []
    track_cooldown := 0
    shoot_cooldown := 0
    mines_remaining := MINE_LIMIT }

/-- Player.die -/
def Player.die (p : Player) : Player :=
  { p with alive := false, hp := 0, respawn_timer := PLAYER_RESPAWN_TIME }

/-- Player.take_damage: returns the updated player and the boolean result
(True exactly on the return paths where the Python function returns True). -/
def Player.take_damage (p : Player) : Player × Bool :=
  if p.alive = false then (p, false)
  else if p.has_shield then ({ p with has_shield := false }, false)
  else
    let p1 : Player := { p with hp := p.hp - 1 }
    if p1.hp ≤ 0 then (p1.die, true) else (p1, false)

/-! ### Claim C10: Player.take_damage -/

/-- C10 counterexample: the claim says take_damage "decrements hp by exactly
1 and returns True exactly when hp thereby reaches 0".  For an alive,
unshielded player whose hp is already 0 (reachable on a client, e.g. via a
snapshot carrying hp 0 with alive true), the decrement reaches -1, not 0, so
the claim predicts the call returns False with hp = -1; the code returns
True and sets hp to 0. -/
theorem take_damage_hp_zero_counterexample :
    (({ Player.init 0 0 0 8 with hp := 0 } : Player).take_damage.2 = true
      ∧ ({ Player.init 0 0 0 8 with hp := 0 } : Player).take_damage.1.hp = 0)
      ∧ ¬(({ Player.init 0 0 0 8 with hp := 0 } : Player).hp - 1 = 0) := by
  refine ⟨⟨?_, ?_⟩, by decide⟩ <;> decide

/-- C10 (amended): for every Player, take_damage returns False and changes
nothing when the player is not alive; clears the shield, leaves hp
unchanged and returns False when a shield is active; otherwise decrements
hp by 1 and returns True exactly when the decremented hp is ≤ 0 (i.e. hp
was ≤ 1 before the call), in which case alive becomes False, hp is set to 0
(not merely decremented), and the respawn timer is started. -/
theorem take_damage_spec (p : Player) :
    (p.alive = false → p.take_damage = (p, false))
    ∧ (p.alive = true → p.has_shield = true →
        p.take_damage = ({ p with has_shield := false }, false))
    ∧ (p.alive = true → p.has_shield = false → 1 < p.hp →
        p.take_damage = ({ p with hp := p.hp - 1 }, false))
    ∧ (p.alive = true → p.has_shield = false → p.hp ≤ 1 →
        p.take_damage
          = ({ p with hp := 0, alive := false, respawn_timer := PLAYER_RESPAWN_TIME }, true)) := by
  refine ⟨?_, ?_, ?_, ?_⟩
  · intro h
    simp [Player.take_damage, h]
  · intro ha hs
    simp [Player.take_damage, ha, hs]
  · intro ha hs hhp
    rw [Player.take_damage, if_neg (by simp [ha]), if_neg (by simp [hs]),
      if_neg (by simp; omega)]
  · intro ha hs hhp
    rw [Player.take_damage, if_neg (by simp [ha]), if_neg (by simp [hs]),
      if_pos (by simp; omega)]
    rfl

/-- Witness for take_damage_spec: a fresh player (hp 3, alive, no shield)
loses exactly one hp and the call reports no death. -/
theorem take_damage_spec_witness :
    (Player.init 0 10 10 8).take_damage
      = ({ Player.init 0 10 10 8 with hp := PLAYER_MAX_HP - 1 }, false) :=
  (take_damage_spec (Player.init 0 10 10 8)).2.2.1 rfl rfl (by decide)

/-! ## Transport peer (src/network_tcp.py, class NetworkPeer)

The peer's observable state: the connected/running flags, the two message
queues, and the receive loop's partial-record buffer.  Byte strings on the
wire are modelled as lists of characters (each standing for one byte);
message payloads are an arbitrary type α together with two codec stages
for one record: decode : List Char → Option (List Char) standing for
line.decode("utf-8") — none models a UnicodeDecodeError — and
parse : List Char → Option α standing for json.loads on the decoded
text, none modelling a json.JSONDecodeError. -/

structure PeerState (α : Type) where
  connected : Bool
  running : Bool
  outbox : List α
  inbox : List α
  buffer : List Char
  deriving Repr, DecidableEq

namespace NetworkPeer

/-- NetworkPeer.send: enqueue on the outbox when connected, silently drop
the message otherwise.  (queue.Queue.put on an unbounded queue; the caller
is never blocked — modelled by send being a total function.) -/
def send {α : Type} (s : PeerState α) (m : α) : PeerState α :=
  if s.connected then { s with outbox := s.outbox ++ [m] } else s

/-- The record-extraction loop of _recv_loop:
while b"\x0a" in buffer: line, buffer = buffer.split(b"\x0a", 1).
Returns the complete newline-delimited records in order and the trailing
partial record that stays in the buffer. -/
def scanRecords (cur : List Char) : List Char → List (List Char) × List Char
  | [] => ([], cur)
  | c :: rest =>
    if c = '\n' then
      let (recs, buf) := scanRecords [] rest
      (cur :: recs, buf)
    else scanRecords (cur ++ [c]) rest

/-- line.strip() is falsy iff every character is whitespace. -/
def isBlank (line : List Char) : Bool := line.all (fun c => c.isWhitespace)

/-- Processing of the complete records extracted in one receive
iteration.  For each record, mirroring the body of the while loop in
_recv_loop: a blank record (falsy line.strip()) is skipped; otherwise
line.decode("utf-8") runs first — decode returning none models it
raising UnicodeDecodeError, an exception caught neither by
except json.JSONDecodeError (a sibling ValueError, not a superclass) nor
by the outer socket.timeout / OSError handlers, so it kills the receive
thread on the spot: the messages already enqueued stay in the inbox, the
remaining records are lost, and the returned flag is false.  When the
bytes decode, json.loads runs — a record it rejects is silently dropped
(except json.JSONDecodeError: pass, with no logging) and processing
continues; a record it accepts is enqueued.  Returns the messages
delivered, in order, and whether the loop survived. -/
def processRecords {α : Type} (decode : List Char → Option (List Char))
    (parse : List Char → Option α) : List (List Char) → List α × Bool
  | [] => ([], true)
  | line :: rest =>
    if isBlank line then processRecords decode parse rest
    else
      match decode line with
      | none => ([], false)
      | some s =>
        match parse s with
        | none => processRecords decode parse rest
        | some m =>
          let r := processRecords decode parse rest
          (m :: r.1, r.2)

/-- One iteration of _recv_loop receiving chunk (the bytes returned by
conn.recv): an empty chunk is an orderly peer close and clears the
connected flag; otherwise the chunk is appended to the buffer and the
complete newline-delimited records are processed.  The second component
reports whether the receive loop survived the iteration: it is false
when an undecodable record raised an uncaught error — in that case the
connected flag is NOT cleared, the thread just stops, so the trailing
buffer kept here and any later chunk are never consumed. -/
def recvStep {α : Type} (decode : List Char → Option (List Char))
    (parse : List Char → Option α) (s : PeerState α)
    (chunk : List Char) : PeerState α × Bool :=
  if chunk = [] then ({ s with connected := false }, true)
  else
    let sr := scanRecords [] (s.buffer ++ chunk)
    let pr := processRecords decode parse sr.1
    ({ s with buffer := sr.2, inbox := s.inbox ++ pr.1 }, pr.2)

/-- Newline-delimited framing of a list of records, as produced by the
sender side (json.dumps(msg) + "\x0a" concatenated). -/
def joinRecords : List (List Char) → List Char
  | [] => []
  | r :: rs => r ++ '\n' :: joinRecords rs

/-- NetworkPeer._client_loop.  For the iteration at retry_count = r,
running r is the value read from self.running and connectOk r tells
whether sock.connect succeeds at that attempt.  The fuel argument is
max_retries - retry_count, so the recursion is structural and the loop
terminates for every input.  Returns the final retry_count (incremented
only by failed attempts, as in the source) and the connected flag. -/
def clientLoopAux (running connectOk : Nat → Bool) : Nat → Nat → Nat × Bool
  | 0, r => (r, false)
  | fuel + 1, r =>
    if running r = false then (r, false)
    else if connectOk r then (r, true)
    else clientLoopAux running connectOk fuel (r + 1)

def max_retries : Nat := 30

def clientLoop (running connectOk : Nat → Bool) : Nat × Bool :=
  clientLoopAux running connectOk max_retries 0

end NetworkPeer

/-! ### Claim C7: send -/

/-- C7: sending on a peer that is not connected is a no-op that silently
drops the message (the whole peer state, outbox included, is unchanged);
sending on a connected peer enqueues the message at the tail of the
outbox.  send is a total function of the state, so it returns without
blocking in either case. -/
theorem send_enqueues_or_drops {α : Type} (s : PeerState α) (m : α) :
    (s.connected = false → NetworkPeer.send s m = s)
    ∧ (s.connected = true →
        NetworkPeer.send s m = { s with outbox := s.outbox ++ [m] }) := by
  constructor <;> intro h <;> simp [NetworkPeer.send, h]

/-- Witness for send_enqueues_or_drops at concrete peer states. -/
theorem send_enqueues_or_drops_witness :
    NetworkPeer.send (⟨false, true, [7], [], []⟩ : PeerState Nat) 5
      = (⟨false, true, [7], [], []⟩ : PeerState Nat)
    ∧ NetworkPeer.send (⟨true, true, [7], [], []⟩ : PeerState Nat) 5
      = (⟨true, true, [7, 5], [], []⟩ : PeerState Nat) :=
  ⟨(send_enqueues_or_drops ⟨false, true, [7], [], []⟩ 5).1 rfl,
   (send_enqueues_or_drops ⟨true, true, [7], [], []⟩ 5).2 rfl⟩

/-! ### Claim C8: malformed records -/

theorem scanRecords_append_no_newline (r : List Char) :
    ∀ (cur rest : List Char), ('\n') ∉ r →
      NetworkPeer.scanRecords cur (r ++ rest)
        = NetworkPeer.scanRecords (cur ++ r) rest := by
  induction r with
  | nil => intro cur rest _; simp
  | cons c t ih =>
    intro cur rest hr
    have hc : ¬(c = '\n') := by
      intro h; exact hr (by simp [h])
    have ht : ('\n') ∉ t := fun h => hr (by simp [h])
    simp only [List.cons_append, NetworkPeer.scanRecords, if_neg hc, List.append_eq]
    rw [ih (cur ++ [c]) rest ht]
    simp

theorem scanRecords_joinRecords (records : List (List Char)) :
    (∀ r ∈ records, ('\n') ∉ r) →
      NetworkPeer.scanRecords [] (NetworkPeer.joinRecords records)
        = (records, []) := by
  induction records with
  | nil => intro _; rfl
  | cons r rs ih =>
    intro h
    have hr : ('\n') ∉ r := h r (by simp)
    have hrs : ∀ x ∈ rs, ('\n') ∉ x := fun x hx => h x (by simp [hx])
    show NetworkPeer.scanRecords [] (r ++ '\n' :: NetworkPeer.joinRecords rs) = _
    rw [scanRecords_append_no_newline r [] ('\n' :: NetworkPeer.joinRecords rs) hr]
    simp [NetworkPeer.scanRecords, ih hrs]

/-- A record that decodes but fails JSON parsing is dropped and the
processing of every other record is exactly as if it were absent: both
the delivered messages and the loop-survival flag agree. -/
theorem processRecords_drop_json_malformed {α : Type}
    (decode : List Char → Option (List Char)) (parse : List Char → Option α)
    (suf : List (List Char)) (mal sm : List Char)
    (hdec : decode mal = some sm) (hpar : parse sm = none) :
    ∀ pre, NetworkPeer.processRecords decode parse (pre ++ mal :: suf)
      = NetworkPeer.processRecords decode parse (pre ++ suf) := by
  intro pre
  induction pre with
  | nil =>
    by_cases hb : NetworkPeer.isBlank mal = true
    · simp [NetworkPeer.processRecords, hb]
    · simp [NetworkPeer.processRecords, hb, hdec, hpar]
  | cons a pre ih =>
    by_cases hb : NetworkPeer.isBlank a = true
    · simp [NetworkPeer.processRecords, hb, ih]
    · cases hd : decode a with
      | none => simp [NetworkPeer.processRecords, hb, hd]
      | some s1 =>
        cases hp : parse s1 with
        | none => simp [NetworkPeer.processRecords, hb, hd, hp, ih]
        | some m => simp [NetworkPeer.processRecords, hb, hd, hp, ih]

/-- A record whose bytes fail to decode kills the receive loop at that
record: given that every earlier record is handled without dying (blank
or decodable), exactly the messages of the earlier records are delivered
and everything after the fatal record is lost. -/
theorem processRecords_fatal {α : Type}
    (decode : List Char → Option (List Char)) (parse : List Char → Option α)
    (suf : List (List Char)) (bad : List Char)
    (hbb : NetworkPeer.isBlank bad = false) (hdec : decode bad = none) :
    ∀ pre, (∀ r ∈ pre, NetworkPeer.isBlank r = true ∨ ∃ t, decode r = some t) →
      NetworkPeer.processRecords decode parse (pre ++ bad :: suf)
        = ((NetworkPeer.processRecords decode parse pre).1, false) := by
  intro pre
  induction pre with
  | nil =>
    intro _
    simp [NetworkPeer.processRecords, hbb, hdec]
  | cons a pre ih =>
    intro h
    have hrest : ∀ r ∈ pre, NetworkPeer.isBlank r = true ∨ ∃ t, decode r = some t :=
      fun r hr => h r (by simp [hr])
    by_cases hb : NetworkPeer.isBlank a = true
    · simp [NetworkPeer.processRecords, hb, ih hrest]
    · rcases h a (by simp) with hb1 | ⟨s1, hd⟩
      · exact absurd hb1 hb
      · cases hp : parse s1 with
        | none => simp [NetworkPeer.processRecords, hb, hd, hp, ih hrest]
        | some m => simp [NetworkPeer.processRecords, hb, hd, hp, ih hrest]

/-- Sample codecs for witnesses.  decodeAscii: a pure-ASCII record
decodes to itself, any record holding a byte at or above 0x80 fails (a
lone such byte, e.g. 0xFF, is never valid UTF-8).  parseDigits: a decoded
record of decimal digits parses to the number it denotes; anything else
fails to parse. -/
def decodeAscii (l : List Char) : Option (List Char) :=
  if l.all (fun c => decide (c.toNat < 128)) then some l else none

def parseDigits (l : List Char) : Option Nat :=
  if l.isEmpty then none
  else if l.all Char.isDigit then
    some (l.foldl (fun n c => 10 * n + (c.toNat - 48)) 0)
  else none

/-- C8 counterexample: receiving the stream "7", then a record whose only
byte 0xFF is not decodable text, then "9": the decode error is caught by
no except clause and the receive loop dies, so the later well-formed
record "9" is never delivered — the inbox ends as [7], not [7, 9] — while
the connected flag still reads true.  This refutes the claim that for
every received byte stream a failing record is merely dropped with all
well-formed records before and after it still delivered (and nothing is
ever logged for the drop either). -/
theorem recv_fatal_decode_counterexample :
    ((NetworkPeer.recvStep decodeAscii parseDigits
        (⟨true, true, [], [], []⟩ : PeerState Nat)
        ['7', '\n', Char.ofNat 255, '\n', '9', '\n']).1.connected = true
      ∧ (NetworkPeer.recvStep decodeAscii parseDigits
        (⟨true, true, [], [], []⟩ : PeerState Nat)
        ['7', '\n', Char.ofNat 255, '\n', '9', '\n']).1.inbox = [7]
      ∧ (NetworkPeer.recvStep decodeAscii parseDigits
        (⟨true, true, [], [], []⟩ : PeerState Nat)
        ['7', '\n', Char.ofNat 255, '\n', '9', '\n']).2 = false)
    ∧ ([7] : List Nat) ≠ [7, 9] := by
  exact ⟨⟨by decide, by decide, by decide⟩, by decide⟩

/-- C8 (amended): on a receive of a nonempty chunk the connected flag is
left untouched (true stays true even when the iteration dies) and the
inbox grows exactly by the messages processRecords extracts from the
complete buffered records; a record that decodes as text but fails JSON
parsing is silently discarded — nothing is logged — and every record
around it is delivered exactly as if it were absent; a record whose
bytes fail to decode kills the receive loop uncaught: the records before
it are delivered, everything after it is lost, and the survival flag is
false; framing a list of newline-free records recovers precisely those
records from the byte stream. -/
theorem recv_step_record_handling {α : Type}
    (decode : List Char → Option (List Char)) (parse : List Char → Option α)
    (s : PeerState α) (chunk : List Char)
    (hc : chunk ≠ []) (hconn : s.connected = true) :
    ((NetworkPeer.recvStep decode parse s chunk).1.connected = true)
    ∧ ((NetworkPeer.recvStep decode parse s chunk).1.inbox
        = s.inbox ++ (NetworkPeer.processRecords decode parse
            (NetworkPeer.scanRecords [] (s.buffer ++ chunk)).1).1)
    ∧ ((NetworkPeer.recvStep decode parse s chunk).2
        = (NetworkPeer.processRecords decode parse
            (NetworkPeer.scanRecords [] (s.buffer ++ chunk)).1).2)
    ∧ (∀ pre suf mal sm, decode mal = some sm → parse sm = none →
        NetworkPeer.processRecords decode parse (pre ++ mal :: suf)
          = NetworkPeer.processRecords decode parse (pre ++ suf))
    ∧ (∀ pre suf bad, NetworkPeer.isBlank bad = false → decode bad = none →
        (∀ r ∈ pre, NetworkPeer.isBlank r = true ∨ ∃ t, decode r = some t) →
        NetworkPeer.processRecords decode parse (pre ++ bad :: suf)
          = ((NetworkPeer.processRecords decode parse pre).1, false))
    ∧ (∀ records, (∀ r ∈ records, ('\n') ∉ r) →
        NetworkPeer.scanRecords [] (NetworkPeer.joinRecords records)
          = (records, [])) := by
  refine ⟨?_, ?_, ?_,
    fun pre suf mal sm hdec hpar =>
      processRecords_drop_json_malformed decode parse suf mal sm hdec hpar pre,
    fun pre suf bad hbb hdec hpre =>
      processRecords_fatal decode parse suf bad hbb hdec pre hpre,
    fun records h => scanRecords_joinRecords records h⟩
  · simp [NetworkPeer.recvStep, hc, hconn]
  · simp [NetworkPeer.recvStep, hc]
  · simp [NetworkPeer.recvStep, hc]

/-- Witness for recv_step_record_handling: receiving "7", then the
decodable but JSON-malformed "xx", then "9" keeps the connection and the
loop alive and delivers 7 then 9, the bad record silently dropped. -/
theorem recv_step_record_handling_witness :
    (NetworkPeer.recvStep decodeAscii parseDigits
        (⟨true, true, [], [], []⟩ : PeerState Nat)
        ['7', '\n', 'x', 'x', '\n', '9', '\n']).1.connected = true
    ∧ (NetworkPeer.recvStep decodeAscii parseDigits
        (⟨true, true, [], [], []⟩ : PeerState Nat)
        ['7', '\n', 'x', 'x', '\n', '9', '\n']).1.inbox = [7, 9]
    ∧ (NetworkPeer.recvStep decodeAscii parseDigits
        (⟨true, true, [], [], []⟩ : PeerState Nat)
        ['7', '\n', 'x', 'x', '\n', '9', '\n']).2 = true := by
  have h := recv_step_record_handling decodeAscii parseDigits
    (⟨true, true, [], [], []⟩ : PeerState Nat)
    ['7', '\n', 'x', 'x', '\n', '9', '\n'] (by decide) rfl
  refine ⟨h.1, ?_, ?_⟩
  · rw [h.2.1]
    decide
  · rw [h.2.2.1]
    decide

/-! ### Claim C9: bounded client connection retries -/

theorem clientLoopAux_le (running connectOk : Nat → Bool) :
    ∀ (fuel r : Nat),
      (NetworkPeer.clientLoopAux running connectOk fuel r).1 ≤ r + fuel
      ∧ ((NetworkPeer.clientLoopAux running connectOk fuel r).2 = true →
          (NetworkPeer.clientLoopAux running connectOk fuel r).1 < r + fuel) := by
  intro fuel
  induction fuel with
  | zero =>
    intro r
    simp [NetworkPeer.clientLoopAux]
  | succ n ih =>
    intro r
    obtain ⟨ha, hb⟩ := ih (r + 1)
    by_cases h1 : running r = false
    · simp [NetworkPeer.clientLoopAux, h1]
    · by_cases h2 : connectOk r = true
      · simp [NetworkPeer.clientLoopAux, h1, h2]
      · simp [NetworkPeer.clientLoopAux, h1, h2]
        refine ⟨by omega, fun h => ?_⟩
        have := hb h
        omega

theorem clientLoopAux_all_fail (running connectOk : Nat → Bool) :
    ∀ (fuel r : Nat),
      (∀ j, r ≤ j → j < r + fuel → running j = true ∧ connectOk j = false) →
      NetworkPeer.clientLoopAux running connectOk fuel r = (r + fuel, false) := by
  intro fuel
  induction fuel with
  | zero => intro r _; simp [NetworkPeer.clientLoopAux]
  | succ n ih =>
    intro r h
    have hr := h r (le_refl r) (by omega)
    have hrec := ih (r + 1) (fun j hj1 hj2 => h j (by omega) (by omega))
    simp [NetworkPeer.clientLoopAux, hr.1, hr.2, hrec]
    omega

theorem clientLoopAux_first_success (running connectOk : Nat → Bool) :
    ∀ (fuel r k : Nat), r ≤ k → k < r + fuel →
      (∀ j, r ≤ j → j < k → running j = true ∧ connectOk j = false) →
      running k = true → connectOk k = true →
      NetworkPeer.clientLoopAux running connectOk fuel r = (k, true) := by
  intro fuel
  induction fuel with
  | zero => intro r k h1 h2 _ _ _; omega
  | succ n ih =>
    intro r k h1 h2 hfail hrun hok
    rcases Nat.eq_or_lt_of_le h1 with heq | hlt
    · subst heq
      simp [NetworkPeer.clientLoopAux, hrun, hok]
    · have hr := hfail r (le_refl r) hlt
      have hrec := ih (r + 1) k (by omega) (by omega)
        (fun j hj1 hj2 => hfail j (by omega) hj2) hrun hok
      simp [NetworkPeer.clientLoopAux, hr.1, hr.2, hrec]

theorem clientLoopAux_shutdown (running connectOk : Nat → Bool) :
    ∀ (fuel r k : Nat), r ≤ k → k < r + fuel →
      (∀ j, r ≤ j → j < k → running j = true ∧ connectOk j = false) →
      running k = false →
      NetworkPeer.clientLoopAux running connectOk fuel r = (k, false) := by
  intro fuel
  induction fuel with
  | zero => intro r k h1 h2 _ _; omega
  | succ n ih =>
    intro r k h1 h2 hfail hrun
    rcases Nat.eq_or_lt_of_le h1 with heq | hlt
    · subst heq
      simp [NetworkPeer.clientLoopAux, hrun]
    · have hr := hfail r (le_refl r) hlt
      have hrec := ih (r + 1) k (by omega) (by omega)
        (fun j hj1 hj2 => hfail j (by omega) hj2) hrun
      simp [NetworkPeer.clientLoopAux, hr.1, hr.2, hrec]

/-- C9: the client connection loop terminates for every input (it is a
structurally recursive function on the retry budget): the final retry
count plus the successful attempt, if any, never exceeds the fixed budget
of 30 attempts; if every attempt within the budget fails while the peer
keeps running, the loop ends in permanent failure with the budget
exhausted and no further attempts; it stops early at the first successful
attempt; and it stops as soon as the shutdown flag is observed. -/
theorem client_loop_bounded (running connectOk : Nat → Bool) :
    ((NetworkPeer.clientLoop running connectOk).1
        + (if (NetworkPeer.clientLoop running connectOk).2 then 1 else 0) ≤ 30)
    ∧ ((∀ j, j < 30 → running j = true ∧ connectOk j = false) →
        NetworkPeer.clientLoop running connectOk = (30, false))
    ∧ (∀ k, k < 30 →
        (∀ j, j < k → running j = true ∧ connectOk j = false) →
        running k = true → connectOk k = true →
        NetworkPeer.clientLoop running connectOk = (k, true))
    ∧ (∀ k, k < 30 →
        (∀ j, j < k → running j = true ∧ connectOk j = false) →
        running k = false →
        NetworkPeer.clientLoop running connectOk = (k, false)) := by
  refine ⟨?_, ?_, ?_, ?_⟩
  · have h := clientLoopAux_le running connectOk 30 0
    unfold NetworkPeer.clientLoop NetworkPeer.max_retries
    rcases hconn : (NetworkPeer.clientLoopAux running connectOk 30 0).2 with _ | _
    · simp_all
    · simp_all
      omega
  · intro h
    exact clientLoopAux_all_fail running connectOk 30 0
      (fun j hj1 hj2 => h j (by omega))
  · intro k hk hfail hrun hok
    exact clientLoopAux_first_success running connectOk 30 0 k (by omega) (by omega)
      (fun j hj1 hj2 => hfail j hj2) hrun hok
  · intro k hk hfail hrun
    exact clientLoopAux_shutdown running connectOk 30 0 k (by omega) (by omega)
      (fun j hj1 hj2 => hfail j hj2) hrun

/-- Witness for client_loop_bounded: with the peer running throughout and
the first two attempts failing, the loop connects at attempt index 2. -/
theorem client_loop_bounded_witness :
    NetworkPeer.clientLoop (fun _ => true) (fun r => decide (r = 2)) = (2, true) :=
  (client_loop_bounded (fun _ => true) (fun r => decide (r = 2))).2.2.1 2
    (by omega)
    (fun j hj => ⟨rfl, by simp; omega⟩)
    rfl (by simp)

/-! ## Lobby coordinator (src/network_tcp.py, class NetworkManager) -/

/-- dict assignment d[k] = v on a dict with Nat keys: replace the value of
an existing key in place, else append a new entry. -/
def dictSet {α : Type} : List (Nat × α) → Nat → α → List (Nat × α)
  | [], k, v => [(k, v)]
  | (k', v') :: rest, k, v =>
    if k' = k then (k, v) :: rest else (k', v') :: dictSet rest k v

/-- A player_join message; the source reads both fields with .get and a
default, so each may be absent. -/
structure JoinMsg where
  player_id : Option Nat
  name : Option String
  deriving Repr, DecidableEq

/-- The NetworkManager fields the lobby claims observe; connected stands
for self.peer existing and self.peer.is_connected(). -/
structure NMState where
  is_host : Bool
  connected : Bool
  player_names : List (Nat × String)
  deriving Repr, DecidableEq

namespace NetworkManager

/-- NetworkManager._handle_message on a player_join message: id and name come
from the message itself (player_id defaulting to 1, the name to
"Player <id>"); the entry is stored in player_names, and the host then
rebroadcasts the roster via send_player_list (which sends only if hosting
and connected).  Returns the new state and the roster broadcast, if one
goes out. -/
def handlePlayerJoin (st : NMState) (m : JoinMsg) :
    NMState × Option (List (Nat × String)) :=
  let pid := m.player_id.getD 1
  let pname := m.name.getD ("Player " ++ toString pid)
  let names := dictSet st.player_names pid pname
  let st1 := { st with player_names := names }
  if st1.is_host && st1.connected then (st1, some names) else (st1, none)

/-- Processing a sequence of player_join messages, collecting every roster
broadcast that goes out, in order. -/
def processJoins (st : NMState) : List JoinMsg → NMState × List (List (Nat × String))
  | [] => (st, [])
  | m :: rest =>
    let r1 := handlePlayerJoin st m
    let r2 := processJoins r1.1 rest
    (r2.1, (match r1.2 with | some b => [b] | none => []) ++ r2.2)

/-- The roster update performed by one join, as a function of the roster. -/
def joinUpd (r : List (Nat × String)) (m : JoinMsg) : List (Nat × String) :=
  dictSet r (m.player_id.getD 1)
    (m.name.getD ("Player " ++ toString (m.player_id.getD 1)))

end NetworkManager

/-! ### Claim C6: lobby roster convergence -/

theorem processJoins_state (ms : List JoinMsg) :
    ∀ st : NMState, (NetworkManager.processJoins st ms).1
      = { st with player_names := ms.foldl NetworkManager.joinUpd st.player_names } := by
  induction ms with
  | nil => intro st; simp [NetworkManager.processJoins]
  | cons m rest ih =>
    intro st
    have h1 : (NetworkManager.handlePlayerJoin st m).1
        = { st with player_names := NetworkManager.joinUpd st.player_names m } := by
      simp only [NetworkManager.handlePlayerJoin, NetworkManager.joinUpd]
      split <;> rfl
    simp only [NetworkManager.processJoins]
    rw [h1, ih]
    rfl

theorem processJoins_broadcasts (ms : List JoinMsg) :
    ∀ st : NMState, st.is_host = true → st.connected = true →
      (NetworkManager.processJoins st ms).2
        = (List.range ms.length).map
            (fun i => (ms.take (i + 1)).foldl NetworkManager.joinUpd st.player_names) := by
  induction ms with
  | nil => intro st _ _; simp [NetworkManager.processJoins]
  | cons m rest ih =>
    intro st hh hc
    have h1 : NetworkManager.handlePlayerJoin st m
        = ({ st with player_names := NetworkManager.joinUpd st.player_names m },
            some (NetworkManager.joinUpd st.player_names m)) := by
      unfold NetworkManager.handlePlayerJoin NetworkManager.joinUpd
      rw [if_pos (by simp [hh, hc])]
    simp only [NetworkManager.processJoins, h1]
    rw [ih { st with player_names := NetworkManager.joinUpd st.player_names m } hh hc]
    rw [List.length_cons, List.range_succ_eq_map]
    simp only [List.map_cons, List.map_map]
    rfl

theorem foldl_joinUpd_singleton (ms : List JoinMsg) :
    ∀ v : String, (∀ m ∈ ms, m.player_id = some 1) →
      ∃ w, ms.foldl NetworkManager.joinUpd [(1, v)] = [(1, w)] := by
  induction ms with
  | nil => intro v _; exact ⟨v, rfl⟩
  | cons m rest ih =>
    intro v h
    have hm : m.player_id = some 1 := h m (by simp)
    have hstep : NetworkManager.joinUpd [(1, v)] m
        = [(1, m.name.getD ("Player " ++ toString 1))] := by
      simp [NetworkManager.joinUpd, hm, dictSet]
    rw [List.foldl_cons, hstep]
    exact ih _ (fun x hx => h x (by simp [hx]))

/-- C6 counterexample: on the code, the host does not assign the joiner id
as the current roster size, and after 1 JOIN the broadcast roster does not
have 1+1 entries with ids 0..1: a host with an empty roster processing
JOIN with player_id 1 and name "Ann" broadcasts the roster [(1, "Ann")],
which has one entry and no entry with id 0. -/
theorem lobby_roster_counterexample :
    (NetworkManager.processJoins ⟨true, true, []⟩ [⟨some 1, some "Ann"⟩]).2
        = [[(1, "Ann")]]
    ∧ ([(1, "Ann")] : List (Nat × String)).length ≠ 1 + 1
    ∧ ∀ p ∈ ([(1, "Ann")] : List (Nat × String)), p.1 ≠ 0 :=
  ⟨rfl, by decide, by decide⟩

/-- C6 (amended): the host stores each joiner under the player id carried
in the JOIN message itself (defaulting to 1; the client always sends 1)
and rebroadcasts the roster after every join: processing N JOINs emits
exactly N roster broadcasts, the i-th being the roster right after the
i-th join, and the final roster is the fold of the message-carried
(id, name) assignments — the host itself never appears, so N JOINs all
carrying id 1 leave a roster of exactly one entry, not N+1. -/
theorem lobby_roster_spec (st : NMState) (ms : List JoinMsg)
    (hh : st.is_host = true) (hc : st.connected = true) :
    (NetworkManager.processJoins st ms).2.length = ms.length
    ∧ (NetworkManager.processJoins st ms).2
        = (List.range ms.length).map
            (fun i => (ms.take (i + 1)).foldl NetworkManager.joinUpd st.player_names)
    ∧ (NetworkManager.processJoins st ms).1.player_names
        = ms.foldl NetworkManager.joinUpd st.player_names
    ∧ (st.player_names = [] → (∀ m ∈ ms, m.player_id = some 1) → ms ≠ [] →
        (NetworkManager.processJoins st ms).1.player_names.length = 1) := by
  refine ⟨?_, processJoins_broadcasts ms st hh hc, ?_, ?_⟩
  · rw [processJoins_broadcasts ms st hh hc]
    simp
  · rw [processJoins_state]
  · intro h0 h1 hne
    rw [processJoins_state]
    cases ms with
    | nil => exact absurd rfl hne
    | cons m rest =>
      have hm : m.player_id = some 1 := h1 m (by simp)
      have hstep : NetworkManager.joinUpd st.player_names m
          = [(1, m.name.getD ("Player " ++ toString 1))] := by
        simp [NetworkManager.joinUpd, hm, h0, dictSet]
      obtain ⟨w, hw⟩ := foldl_joinUpd_singleton rest
        (m.name.getD ("Player " ++ toString 1)) (fun x hx => h1 x (by simp [hx]))
      simp only [List.foldl_cons, hstep, hw]
      rfl

/-- Witness for lobby_roster_spec: two JOINs both carrying id 1 produce
two broadcasts and a final roster with the single entry (1, "Bob"). -/
theorem lobby_roster_spec_witness :
    (NetworkManager.processJoins ⟨true, true, []⟩
        [⟨some 1, some "Ann"⟩, ⟨some 1, some "Bob"⟩]).2.length = 2
    ∧ (NetworkManager.processJoins ⟨true, true, []⟩
        [⟨some 1, some "Ann"⟩, ⟨some 1, some "Bob"⟩]).1.player_names.length = 1 := by
  have h := lobby_roster_spec ⟨true, true, []⟩
    [⟨some 1, some "Ann"⟩, ⟨some 1, some "Bob"⟩] rfl rfl
  exact ⟨h.1, h.2.2.2 rfl (by decide) (by decide)⟩

/-! ## Game state synchronization (src/app.py, class GameInstance)

Numeric message fields read with .get(key) and no default are modelled as
Option; fields read with .get(key, fallback) are Option combined with
getD at the use site, exactly as in the source. -/

def BULLET_LIFETIME : Int := 180

structure Bullet where
  x : ℚ
  y : ℚ
  vx : ℚ
  vy : ℚ
  owner_id : Nat
  bounces : Int
  lifetime : Int
  active : Bool
  deriving Repr, DecidableEq

/-- Bullet.__init__ (src/bullet.py) -/
def Bullet.init (x y vx vy : ℚ) (owner_id : Nat) : Bullet :=
  ⟨x, y, vx, vy, owner_id, 0, BULLET_LIFETIME, true⟩

structure Mine where
  x : ℚ
  y : ℚ
  owner_id : Nat
  active : Bool
  lifetime : Int
  trigger_radius : ℚ
  deriving Repr, DecidableEq

/-- Mine.__init__ (src/items.py) -/
def Mine.init (x y : ℚ) (owner_id : Nat) : Mine := ⟨x, y, owner_id, true, 600, 12⟩

structure Item where
  x : ℚ
  y : ℚ
  type : Int
  active : Bool
  animation_frame : Int
  deriving Repr, DecidableEq

/-- Item.__init__ (src/items.py) -/
def Item.init (x y : ℚ) (item_type : Int) : Item := ⟨x, y, item_type, true, 0⟩

/-- A stored interpolation target (x, y, direction), exactly the tuple
(.get("x"), .get("y"), .get("direction")) stored by the source: each
component may be absent. -/
abbrev RTarget : Type := Option ℚ × Option ℚ × Option Int

/-- One per-player record of a game_state snapshot; every field is read
with .get, so each may be absent. -/
structure PlayerSnap where
  id : Option Nat
  x : Option ℚ
  y : Option ℚ
  direction : Option Int
  hp : Option Int
  kills : Option Int
  alive : Option Bool
  has_shield : Option Bool
  has_triple_shot : Option Bool
  has_speed_boost : Option Bool
  has_full_vision : Option Bool
  deriving Repr, DecidableEq

/-- One per-item record of a game_state snapshot.  x, y and type are read
with .get and no default; host-produced snapshots always carry them, so
they are modelled as present.  active is read with default True. -/
structure SnapItem where
  x : ℚ
  y : ℚ
  type : Int
  active : Option Bool
  deriving Repr, DecidableEq

/-- A game_state (FULL_SNAPSHOT) message. -/
structure GameStateMsg where
  players : List PlayerSnap
  items : List SnapItem
  game_over : Option Bool
  winner_id : Option Nat
  deriving Repr, DecidableEq

/-- A player_damage (EVENT_DAMAGE) message. -/
structure DamageMsg where
  player_id : Option Nat
  hp : Option Int
  died : Option Bool
  attacker_id : Option Nat
  x : Option ℚ
  y : Option ℚ
  deriving Repr, DecidableEq

/-- The GameInstance fields the synchronization claims observe.  items is
self.item_spawner.items; network is self.network together with its
my_player_id when the manager exists; the pure-rendering fields (camera,
and the alias self.winner = players[winner_id]) are omitted.
remote_targets, a dict keyed by player id, is modelled extensionally. -/
@[ext]
structure GameState where
  players : List Player
  bullets : List Bullet
  mines : List Mine
  explosions : List (ℚ × ℚ × Int)
  items : List Item
  game_over : Bool
  winner_id : Option Nat
  remote_targets : Nat → Option RTarget
  use_network : Bool
  network : Option (Option Nat)

/-- Placeholder for list indexing that is always guarded by an explicit
bounds check, as in the source. -/
def defaultPlayer : Player := Player.init 0 0 0 8

/-- self.remote_targets[player_id] = v -/
def writeTarget (f : Nat → Option RTarget) (k : Nat) (v : RTarget) :
    Nat → Option RTarget :=
  fun j => if j = k then some v else f j

/-- The per-player field refresh of _apply_game_state: hp, kills, alive
and the four power-up flags are overwritten when present in the record
and kept otherwise (position and direction of the player object are not
touched here — positions travel through remote_targets). -/
def applySnapFields (p : Player) (d : PlayerSnap) : Player :=
  { p with
    hp := d.hp.getD p.hp
    kills := d.kills.getD p.kills
    alive := d.alive.getD p.alive
    has_shield := d.has_shield.getD p.has_shield
    has_triple_shot := d.has_triple_shot.getD p.has_triple_shot
    has_speed_boost := d.has_speed_boost.getD p.has_speed_boost
    has_full_vision := d.has_full_vision.getD p.has_full_vision }

/-- One iteration of the player loop of _apply_game_state, acting on the
pair (players, remote_targets): skipped when the record has no id or the
id is out of range; otherwise the interpolation target is stored when a
network manager exists and the id is not the local player, and the
slowly-changing fields are refreshed. -/
def snapStep (network : Option (Option Nat))
    (st : List Player × (Nat → Option RTarget)) (d : PlayerSnap) :
    List Player × (Nat → Option RTarget) :=
  match d.id with
  | none => st
  | some i =>
    if i < st.1.length then
      let tg := match network with
        | none => st.2
        | some mid =>
          if mid ≠ some i then writeTarget st.2 i (d.x, d.y, d.direction) else st.2
      let p := st.1.getD i defaultPlayer
      (st.1.set i (applySnapFields p d), tg)
    else st

/-- GameInstance._apply_game_state: refresh every listed player's
slowly-changing fields and (for non-local players) interpolation targets,
rebuild the item list from the snapshot, set game_over from the message
(default False) and winner_id when valid. -/
def applyGameState (g : GameState) (msg : GameStateMsg) : GameState :=
  let st := msg.players.foldl (snapStep g.network) (g.players, g.remote_targets)
  let items := msg.items.filterMap (fun idata =>
    if idata.active.getD true then some (Item.init idata.x idata.y idata.type)
    else none)
  let go := msg.game_over.getD false
  let w : Option Nat := match msg.winner_id with
    | some wid => if wid < st.1.length then some wid else g.winner_id
    | none => g.winner_id
  { g with players := st.1, remote_targets := st.2, items := items,
           game_over := go, winner_id := w }

/-- GameInstance._apply_player_damage: set the named player's hp from the
message; when died, mark them dead, start the respawn timer, move them to
the carried position, and credit the attacker with a kill, declaring game
over when the attacker reaches WIN_KILLS. -/
def applyPlayerDamage (g : GameState) (m : DamageMsg) : GameState :=
  match m.player_id with
  | none => g
  | some i =>
    if i < g.players.length then
      let p0 := g.players.getD i defaultPlayer
      let p1 : Player := { p0 with hp := m.hp.getD p0.hp }
      let died := m.died.getD false
      if died then
        let p2 : Player := { p1 with
          alive := false
          respawn_timer := PLAYER_RESPAWN_TIME
          x := m.x.getD p1.x
          y := m.y.getD p1.y }
        let ps := g.players.set i p2
        match m.attacker_id with
        | none => { g with players := ps }
        | some a =>
          if a < ps.length then
            let killer0 := ps.getD a defaultPlayer
            let killer : Player := { killer0 with kills := killer0.kills + 1 }
            let ps2 := ps.set a killer
            if killer.kills ≥ WIN_KILLS then
              { g with players := ps2, game_over := true,
                       winner_id := some killer.id }
            else { g with players := ps2 }
          else { g with players := ps }
      else { g with players := g.players.set i p1 }
    else g

/-- One interpolation step of _interpolate_remote_players toward target
(tx, ty): a target farther than 50 snaps the position, a target farther
than 0.5 moves the position by 0.3 of the remaining distance per axis,
and a closer target leaves the position alone.  The source compares the
Euclidean distance (dx*dx + dy*dy) ** 0.5 with 50 and 0.5; over exact
rationals the comparisons are phrased on the squared distance, which is
equivalent since both sides are nonnegative. -/
def interpolateStep (p : Player) (tx ty : ℚ) : Player :=
  let dx := tx - p.x
  let dy := ty - p.y
  let dist2 := dx * dx + dy * dy
  if dist2 > 50 * 50 then { p with x := tx, y := ty }
  else if dist2 > 1 / 2 * (1 / 2) then
    { p with x := p.x + dx * (3 / 10), y := p.y + dy * (3 / 10) }
  else p

/-- GameInstance._interpolate_remote_players: a no-op without networking;
otherwise every player other than the local one that has a stored target
with both coordinates moves one interpolateStep toward it.  (A stored
target with an absent coordinate would raise TypeError in the source on
subtraction; host messages always carry both coordinates.) -/
def interpolateRemotePlayers (g : GameState) : GameState :=
  match g.network with
  | none => g
  | some mid =>
    if g.use_network = false then g
    else
      { g with players := g.players.map (fun p =>
          if mid = some p.id then p
          else match g.remote_targets p.id with
            | some (some tx, some ty, _) => interpolateStep p tx ty
            | _ => p) }

/-! ### Claim C2: snapshots never touch transient per-tick effects -/

/-- C2: for every snapshot message and every game state, applying the
snapshot leaves the bullets list, the mines list and the explosions list
unchanged: a snapshot refreshes only the slowly-changing per-player
fields, the interpolation targets and the item set, and cannot un-apply a
discrete event already reflected in those transient lists. -/
theorem snapshot_frame (g : GameState) (msg : GameStateMsg) :
    (applyGameState g msg).bullets = g.bullets
    ∧ (applyGameState g msg).mines = g.mines
    ∧ (applyGameState g msg).explosions = g.explosions :=
  ⟨rfl, rfl, rfl⟩

/-! ### Claim C5: win-condition evaluation on the client -/

/-- A concrete two-player client-side state (my_player_id = 1). -/
def gClient : GameState :=
  { players := [Player.init 0 20 20 8, Player.init 1 230 230 11]
    bullets := []
    mines := []
    explosions := []
    items := []
    game_over := false
    winner_id := none
    remote_targets := fun _ => none
    use_network := true
    network := some (some 1) }

/-- A snapshot that reports kills = 5 for player 0 but game_over = false. -/
def snapKills5 : GameStateMsg :=
  { players := [{
      id := some 0
      x := some 20
      y := some 20
      direction := some 0
      hp := some 3
      kills := some 5
      alive := some true
      has_shield := some false
      has_triple_shot := some false
      has_speed_boost := some false
      has_full_vision := some false }]
    items := []
    game_over := some false
    winner_id := none }

/-- The same client state with the attacker one kill short of the
threshold, and the damage message that would push it over. -/
def gClient4 : GameState :=
  { gClient with players := [{ Player.init 0 20 20 8 with kills := 4 },
                             Player.init 1 230 230 11] }

def dmgWin : DamageMsg :=
  { player_id := some 1
    hp := some 0
    died := some true
    attacker_id := some 0
    x := some 230
    y := some 230 }

/-- C5 counterexample: (a) applying a snapshot whose kills field reaches
the win threshold 5 while its game_over flag is false leaves the client's
game_over false — the client copies the host's flag instead of evaluating
the kill threshold from the snapshot; (b) the client's game_over can also
become true through the player_damage handler, so snapshot application is
not the only place win conditions are evaluated on the client. -/
theorem snapshot_win_counterexample :
    (((applyGameState gClient snapKills5).players.getD 0 defaultPlayer).kills
        = WIN_KILLS
      ∧ (applyGameState gClient snapKills5).game_over = false)
    ∧ (applyPlayerDamage gClient4 dmgWin).game_over = true := by
  refine ⟨⟨?_, rfl⟩, ?_⟩ <;> rfl

/-- C5 (amended): upon applying a snapshot the client's game_over state
becomes exactly the game_over flag carried in the snapshot (defaulting to
false when absent), regardless of the kills values it carries: the client
mirrors the host's win-condition evaluation rather than re-evaluating the
kill threshold, and the damage-event handler is a second client-side
place where game_over can be set. -/
theorem snapshot_game_over_mirrors_host (g : GameState) (msg : GameStateMsg) :
    (applyGameState g msg).game_over = msg.game_over.getD false := rfl

/-! ### Claim C4: player_damage with died = false -/

/-- C4: applying a player_damage message with died false sets the named
player's hp to exactly the hp carried in the message, increments no
player's kill count, and preserves the roster size. -/
theorem damage_no_death_sets_hp (g : GameState) (m : DamageMsg) (i : Nat)
    (hpv : Int) (hid : m.player_id = some i) (hlt : i < g.players.length)
    (hhp : m.hp = some hpv) (hdied : m.died = some false) :
    ((applyPlayerDamage g m).players.getD i defaultPlayer).hp = hpv
    ∧ (∀ j, ((applyPlayerDamage g m).players.getD j defaultPlayer).kills
        = (g.players.getD j defaultPlayer).kills)
    ∧ (applyPlayerDamage g m).players.length = g.players.length := by
  have hform : applyPlayerDamage g m
      = { g with players :=
            g.players.set i { g.players.getD i defaultPlayer with hp := hpv } } := by
    simp [applyPlayerDamage, hid, hlt, hhp, hdied]
  rw [hform]
  refine ⟨?_, ?_, by simp⟩
  · simp [List.getD_eq_getElem?_getD, List.getElem?_set_self' , hlt]
  · intro j
    by_cases hji : j = i
    · subst hji
      simp [List.getD_eq_getElem?_getD, List.getElem?_set_self', hlt]
    · simp [List.getD_eq_getElem?_getD, List.getElem?_set_ne, hji,
        Ne.symm hji]

/-- The spec's scenario 3 message: EVENT_DAMAGE with player 1, hp 2, not
died, attacker 0. -/
def dmgHp2 : DamageMsg :=
  { player_id := some 1
    hp := some 2
    died := some false
    attacker_id := some 0
    x := none
    y := none }

/-- Witness for damage_no_death_sets_hp at the spec's scenario 3: player
1's hp becomes exactly 2 and both players' kill counts are unchanged. -/
theorem damage_no_death_sets_hp_witness :
    ((applyPlayerDamage gClient dmgHp2).players.getD 1 defaultPlayer).hp = 2
    ∧ ((applyPlayerDamage gClient dmgHp2).players.getD 0 defaultPlayer).kills
        = (gClient.players.getD 0 defaultPlayer).kills
    ∧ ((applyPlayerDamage gClient dmgHp2).players.getD 1 defaultPlayer).kills
        = (gClient.players.getD 1 defaultPlayer).kills := by
  have h := damage_no_death_sets_hp gClient dmgHp2 1 2 rfl (by decide) rfl rfl
  exact ⟨h.1, h.2.1 0, h.2.1 1⟩

/-! ### Claim C3: remote interpolation -/

/-- C3 counterexample: with current position (100, 100) and target
(100.4, 100) the remaining distance 0.4 does not exceed the teleport
threshold, so the claim predicts a move of 0.3 × 0.4 to x = 100.12; the
code's dead zone (no move when the distance is at most 0.5) leaves the
position exactly where it was. -/
theorem interpolate_deadzone_counterexample :
    interpolateStep (Player.init 1 100 100 11) (502 / 5) 100
        = Player.init 1 100 100 11
    ∧ (Player.init 1 100 100 11).x
          + (502 / 5 - (Player.init 1 100 100 11).x) * (3 / 10)
        ≠ (Player.init 1 100 100 11).x := by
  constructor
  · rw [interpolateStep, if_neg (by norm_num [Player.init]),
      if_neg (by norm_num [Player.init])]
  · norm_num [Player.init]

/-- C3 (amended): one interpolation step for a remote player with target
(tx, ty), phrased on the squared distance d2: beyond the teleport
threshold (d2 > 50 * 50) the position becomes exactly the target; between
the dead zone and the threshold (1/2 * 1/2 < d2 ≤ 50 * 50) the position
moves by the smoothing factor 3/10 times the remaining distance along
each axis; within the dead zone (d2 ≤ 1/2 * 1/2, a case the claim omits)
the position is left unchanged. -/
theorem interpolate_step_spec (p : Player) (tx ty : ℚ) :
    ((tx - p.x) * (tx - p.x) + (ty - p.y) * (ty - p.y) > 50 * 50 →
        interpolateStep p tx ty = { p with x := tx, y := ty })
    ∧ ((tx - p.x) * (tx - p.x) + (ty - p.y) * (ty - p.y) ≤ 50 * 50 →
        (tx - p.x) * (tx - p.x) + (ty - p.y) * (ty - p.y) > 1 / 2 * (1 / 2) →
        interpolateStep p tx ty
          = { p with x := p.x + (tx - p.x) * (3 / 10),
                     y := p.y + (ty - p.y) * (3 / 10) })
    ∧ ((tx - p.x) * (tx - p.x) + (ty - p.y) * (ty - p.y) ≤ 1 / 2 * (1 / 2) →
        interpolateStep p tx ty = p) := by
  refine ⟨fun h => ?_, fun h1 h2 => ?_, fun h => ?_⟩
  · rw [interpolateStep, if_pos h]
  · rw [interpolateStep, if_neg (not_lt.mpr h1), if_pos h2]
  · rw [interpolateStep, if_neg (not_lt.mpr (by linarith)), if_neg (not_lt.mpr h)]

/-- Witness for interpolate_step_spec at the spec's scenario 5: target
(100, 100) from (90, 100) with smoothing 0.3 yields (93, 100). -/
theorem interpolate_step_spec_witness :
    (interpolateStep (Player.init 1 90 100 11) 100 100).x = 93
    ∧ (interpolateStep (Player.init 1 90 100 11) 100 100).y = 100 := by
  have h := (interpolate_step_spec (Player.init 1 90 100 11) 100 100).2.1
    (by norm_num [Player.init]) (by norm_num [Player.init])
  rw [h]
  constructor
  · norm_num [Player.init]
  · norm_num [Player.init]

/-! ### Claim C1: snapshot idempotence

The proof characterises the player loop of _apply_game_state component by
component: each refreshed player field is a fold of overwrite-or-keep
options, each remote-target entry is a fold of constant writes, and both
folds are idempotent because a second pass writes back exactly the values
the first pass left. -/

theorem gfold_idem {γ : Type} (os : List (Option γ)) (x : γ) :
    List.foldl (fun a o => o.getD a)
        (List.foldl (fun a o => o.getD a) x os) os
      = List.foldl (fun a o => o.getD a) x os := by
  induction os using List.reverseRecOn generalizing x with
  | nil => rfl
  | append_singleton os o ih =>
    cases o with
    | none => simp [List.foldl_append, ih]
    | some v => simp [List.foldl_append]

theorem foldSnap_field {γ : Type} (f : Player → γ) (sel : PlayerSnap → Option γ)
    (hf : ∀ q d, f (applySnapFields q d) = (sel d).getD (f q))
    (ds : List PlayerSnap) :
    ∀ p, f (List.foldl applySnapFields p ds)
      = List.foldl (fun a o => o.getD a) (f p) (ds.map sel) := by
  induction ds with
  | nil => intro p; rfl
  | cons d rest ih =>
    intro p
    rw [List.foldl_cons, ih, List.map_cons, List.foldl_cons, hf]

theorem foldSnap_const {γ : Type} (f : Player → γ)
    (hf : ∀ q d, f (applySnapFields q d) = f q) (ds : List PlayerSnap) :
    ∀ p, f (List.foldl applySnapFields p ds) = f p := by
  induction ds with
  | nil => intro p; rfl
  | cons d rest ih => intro p; rw [List.foldl_cons, ih, hf]

/-- Refreshing a single player twice with the same record sequence equals
refreshing it once: each field holds the last value the records carry for
it (or the original when none carries it), so the second pass rewrites
every field to the value it already has. -/
theorem applySnapList_idem (ds : List PlayerSnap) (p : Player) :
    List.foldl applySnapFields (List.foldl applySnapFields p ds) ds
      = List.foldl applySnapFields p ds := by
  have key : ∀ {γ : Type} (f : Player → γ) (sel : PlayerSnap → Option γ),
      (∀ q d, f (applySnapFields q d) = (sel d).getD (f q)) →
      f (List.foldl applySnapFields (List.foldl applySnapFields p ds) ds)
        = f (List.foldl applySnapFields p ds) := by
    intro γ f sel hf
    rw [foldSnap_field f sel hf ds (List.foldl applySnapFields p ds),
      foldSnap_field f sel hf ds p, gfold_idem]
  have keyc : ∀ {γ : Type} (f : Player → γ),
      (∀ q d, f (applySnapFields q d) = f q) →
      f (List.foldl applySnapFields (List.foldl applySnapFields p ds) ds)
        = f (List.foldl applySnapFields p ds) := by
    intro γ f hf
    rw [foldSnap_const f hf ds (List.foldl applySnapFields p ds)]
  apply Player.ext
  · exact keyc Player.id (fun q d => rfl)
  · exact keyc Player.x (fun q d => rfl)
  · exact keyc Player.y (fun q d => rfl)
  · exact keyc Player.color (fun q d => rfl)
  · exact keyc Player.direction (fun q d => rfl)
  · exact key Player.hp PlayerSnap.hp (fun q d => rfl)
  · exact keyc Player.speed (fun q d => rfl)
  · exact key Player.kills PlayerSnap.kills (fun q d => rfl)
  · exact key Player.alive PlayerSnap.alive (fun q d => rfl)
  · exact keyc Player.respawn_timer (fun q d => rfl)
  · exact key Player.has_triple_shot PlayerSnap.has_triple_shot (fun q d => rfl)
  · exact key Player.has_shield PlayerSnap.has_shield (fun q d => rfl)
  · exact key Player.has_speed_boost PlayerSnap.has_speed_boost (fun q d => rfl)
  · exact key Player.has_full_vision PlayerSnap.has_full_vision (fun q d => rfl)
  · exact keyc Player.triple_shot_timer (fun q d => rfl)
  · exact keyc Player.speed_boost_timer (fun q d => rfl)
  · exact keyc Player.full_vision_timer (fun q d => rfl)
  · exact keyc Player.track_trail (fun q d => rfl)
  · exact keyc Player.track_cooldown (fun q d => rfl)
  · exact keyc Player.shoot_cooldown (fun q d => rfl)
  · exact keyc Player.mines_remaining (fun q d => rfl)

theorem snapStep_length (network : Option (Option Nat)) (ps : List Player)
    (tg : Nat → Option RTarget) (d : PlayerSnap) :
    (snapStep network (ps, tg) d).1.length = ps.length := by
  cases hid : d.id with
  | none => simp [snapStep, hid]
  | some i =>
    by_cases hi : i < ps.length
    · simp [snapStep, hid, hi]
    · simp [snapStep, hid, hi]

theorem snapFold_length (network : Option (Option Nat)) (ds : List PlayerSnap) :
    ∀ (ps : List Player) (tg : Nat → Option RTarget),
      (List.foldl (snapStep network) (ps, tg) ds).1.length = ps.length := by
  induction ds with
  | nil => intro ps tg; rfl
  | cons d rest ih =>
    intro ps tg
    rw [List.foldl_cons, ← Prod.mk.eta (p := snapStep network (ps, tg) d), ih,
      snapStep_length]

theorem snapFold_players_get (network : Option (Option Nat))
    (ds : List PlayerSnap) :
    ∀ (ps : List Player) (tg : Nat → Option RTarget) (i : Nat),
      (List.foldl (snapStep network) (ps, tg) ds).1[i]?
        = (ps[i]?).map (fun p => List.foldl applySnapFields p
            (ds.filter (fun d => d.id == some i))) := by
  induction ds with
  | nil =>
    intro ps tg i
    show ps[i]? = (ps[i]?).map (fun p => List.foldl applySnapFields p
        (List.filter (fun d => d.id == some i) []))
    cases ps[i]? <;> rfl
  | cons d rest ih =>
    intro ps tg i
    rw [List.foldl_cons, ← Prod.mk.eta (p := snapStep network (ps, tg) d), ih]
    cases hid : d.id with
    | none =>
      have hstep : snapStep network (ps, tg) d = (ps, tg) := by
        simp [snapStep, hid]
      rw [hstep]
      simp [List.filter_cons, hid]
    | some j =>
      by_cases hj : j < ps.length
      · have hstep1 : (snapStep network (ps, tg) d).1
            = ps.set j (applySnapFields (ps.getD j defaultPlayer) d) := by
          simp [snapStep, hid, hj]
        by_cases hij : j = i
        · subst hij
          cases hq : ps[j]? with
          | none =>
            rw [List.getElem?_eq_none_iff] at hq
            omega
          | some q =>
            have hgd : ps.getD j defaultPlayer = q := by
              rw [List.getD_eq_getElem?_getD, hq]; rfl
            rw [hstep1, List.getElem?_set_eq_of_lt _ hj, hgd]
            simp [List.filter_cons, hid]
        · rw [hstep1, List.getElem?_set_ne hij]
          have hfilter : (d :: rest).filter (fun d => d.id == some i)
              = rest.filter (fun d => d.id == some i) := by
            simp [List.filter_cons, hid, hij]
          rw [hfilter]
      · have hstep : snapStep network (ps, tg) d = (ps, tg) := by
          simp [snapStep, hid, hj]
        rw [hstep]
        by_cases hij : j = i
        · subst hij
          have hq : ps[j]? = none := by
            rw [List.getElem?_eq_none_iff]
            omega
          rw [hq]
          rfl
        · have hfilter : (d :: rest).filter (fun d => d.id == some i)
              = rest.filter (fun d => d.id == some i) := by
            simp [List.filter_cons, hid, hij]
          rw [hfilter]

/-- Whether (and with what value) one snapshot record writes the
remote-target entry of key k, given the (fold-invariant) roster length n:
records without a valid in-range id, records for the local player, and
records for other keys write nothing. -/
def selTarget (network : Option (Option Nat)) (n k : Nat) (d : PlayerSnap) :
    Option (Option RTarget) :=
  match d.id with
  | none => none
  | some i =>
    if i < n then
      match network with
      | none => none
      | some mid =>
        if mid ≠ some i then
          if k = i then some (some (d.x, d.y, d.direction)) else none
        else none
    else none

theorem snapStep_targets (network : Option (Option Nat)) (ps : List Player)
    (tg : Nat → Option RTarget) (d : PlayerSnap) (k : Nat) :
    (snapStep network (ps, tg) d).2 k
      = (selTarget network ps.length k d).getD (tg k) := by
  cases hid : d.id with
  | none => simp [snapStep, selTarget, hid]
  | some i =>
    by_cases hi : i < ps.length
    · cases network with
      | none => simp [snapStep, selTarget, hid, hi]
      | some mid =>
        by_cases hmid : mid ≠ some i
        · by_cases hk : k = i
          · subst hk
            simp [snapStep, selTarget, hid, hi, hmid, writeTarget]
          · simp [snapStep, selTarget, hid, hi, hmid, writeTarget, hk]
        · simp [snapStep, selTarget, hid, hi, hmid]
    · simp [snapStep, selTarget, hid, hi]

theorem snapFold_targets (network : Option (Option Nat)) (ds : List PlayerSnap) :
    ∀ (ps : List Player) (tg : Nat → Option RTarget) (k : Nat),
      (List.foldl (snapStep network) (ps, tg) ds).2 k
        = List.foldl (fun a o => o.getD a) (tg k)
            (ds.map (selTarget network ps.length k)) := by
  induction ds with
  | nil => intro ps tg k; rfl
  | cons d rest ih =>
    intro ps tg k
    rw [List.foldl_cons, ← Prod.mk.eta (p := snapStep network (ps, tg) d), ih,
      snapStep_length, List.map_cons, List.foldl_cons, snapStep_targets]

theorem applyGameState_network (g : GameState) (msg : GameStateMsg) :
    (applyGameState g msg).network = g.network := rfl

theorem applyGameState_players (g : GameState) (msg : GameStateMsg) :
    (applyGameState g msg).players
      = (msg.players.foldl (snapStep g.network)
          (g.players, g.remote_targets)).1 := rfl

theorem applyGameState_targets (g : GameState) (msg : GameStateMsg) :
    (applyGameState g msg).remote_targets
      = (msg.players.foldl (snapStep g.network)
          (g.players, g.remote_targets)).2 := rfl

theorem applyGameState_players_length (g : GameState) (msg : GameStateMsg) :
    (applyGameState g msg).players.length = g.players.length := by
  rw [applyGameState_players, ← Prod.mk.eta
    (p := (g.players, g.remote_targets)), snapFold_length]

theorem applyGameState_players_idem (g : GameState) (msg : GameStateMsg) :
    (applyGameState (applyGameState g msg) msg).players
      = (applyGameState g msg).players := by
  apply List.ext_getElem?
  intro i
  rw [applyGameState_players (applyGameState g msg) msg, applyGameState_network,
    snapFold_players_get, applyGameState_players g msg, snapFold_players_get,
    Option.map_map]
  cases g.players[i]? with
  | none => rfl
  | some q =>
    simp [Function.comp, applySnapList_idem]

theorem applyGameState_targets_idem (g : GameState) (msg : GameStateMsg) :
    (applyGameState (applyGameState g msg) msg).remote_targets
      = (applyGameState g msg).remote_targets := by
  funext k
  rw [applyGameState_targets (applyGameState g msg) msg, applyGameState_network,
    snapFold_targets, applyGameState_players_length,
    applyGameState_targets g msg, snapFold_targets]
  exact gfold_idem _ _

theorem applyGameState_winner_idem (g : GameState) (msg : GameStateMsg) :
    (applyGameState (applyGameState g msg) msg).winner_id
      = (applyGameState g msg).winner_id := by
  cases hw : msg.winner_id with
  | none =>
    show (match msg.winner_id with
      | some wid =>
        if wid < (msg.players.foldl (snapStep (applyGameState g msg).network)
            ((applyGameState g msg).players,
              (applyGameState g msg).remote_targets)).1.length
        then some wid else (applyGameState g msg).winner_id
      | none => (applyGameState g msg).winner_id) = _
    rw [hw]
  | some wid =>
    show (match msg.winner_id with
      | some wid =>
        if wid < (msg.players.foldl (snapStep (applyGameState g msg).network)
            ((applyGameState g msg).players,
              (applyGameState g msg).remote_targets)).1.length
        then some wid else (applyGameState g msg).winner_id
      | none => (applyGameState g msg).winner_id) = _
    rw [hw]
    have hlen : (msg.players.foldl (snapStep (applyGameState g msg).network)
        ((applyGameState g msg).players,
          (applyGameState g msg).remote_targets)).1.length
        = g.players.length := by
      rw [← Prod.mk.eta (p := ((applyGameState g msg).players,
        (applyGameState g msg).remote_targets))]
      rw [snapFold_length, applyGameState_players_length]
    rw [hlen]
    have hw1 : (applyGameState g msg).winner_id
        = if wid < g.players.length then some wid else g.winner_id := by
      show (match msg.winner_id with
        | some wid =>
          if wid < (msg.players.foldl (snapStep g.network)
              (g.players, g.remote_targets)).1.length
          then some wid else g.winner_id
        | none => g.winner_id) = _
      rw [hw, ← Prod.mk.eta (p := (g.players, g.remote_targets)),
        snapFold_length]
    show (if wid < g.players.length then some wid
        else (applyGameState g msg).winner_id) = (applyGameState g msg).winner_id
    by_cases hlt : wid < g.players.length
    · rw [if_pos hlt, hw1, if_pos hlt]
    · rw [if_neg hlt]

/-- C1: applying the same game_state snapshot twice in a row is
idempotent: the second application leaves the whole state — per-player
hp, kills, alive and power-up flags, the interpolation targets, the item
list, game_over and the winner — exactly as the first left it. -/
theorem snapshot_idempotent (g : GameState) (msg : GameStateMsg) :
    applyGameState (applyGameState g msg) msg = applyGameState g msg := by
  apply GameState.ext
  · exact applyGameState_players_idem g msg
  · rfl
  · rfl
  · rfl
  · rfl
  · rfl
  · exact applyGameState_winner_idem g msg
  · exact applyGameState_targets_idem g msg
  · rfl
  · rfl

end TankTank
